import Mathlib

/-!
Shallow embedding of the payment-engine repository (src/transaction.rs,
src/state.rs, src/errors.rs) and verification of its specification.

Modelling decisions:
* `rust_decimal::Decimal` is modelled as `ℚ` (exact decimal arithmetic).
* `u16` client ids and `u32` transaction ids are modelled as `Nat`
  (no claim involves integer overflow).
* `HashMap` is modelled as an association list (`AList`) with
  lookup / insert / erase; `insert` replaces any existing binding.
* `&mut self` methods become state-passing functions; a method that
  returns `Err` after having already mutated `self` yields the mutated
  state together with the error.
* `Option::unwrap()` on `None` (a Rust panic) is modelled by an explicit
  `panic` outcome.
-/

namespace Payment

/-- Association list keyed by `Nat`, modelling `std::collections::HashMap`. -/
abbrev AList (α : Type) : Type := List (Nat × α)

/-- `HashMap::get` / `contains_key` (via `isSome`). -/
def AList.lookup {α : Type} (k : Nat) : AList α → Option α
  | [] => none
  | (k', v) :: rest => if k' = k then some v else AList.lookup k rest

/-- `HashMap::remove` (key part). -/
def AList.erase {α : Type} (k : Nat) : AList α → AList α
  | [] => []
  | (k', v) :: rest =>
    if k' = k then AList.erase k rest else (k', v) :: AList.erase k rest

/-- `HashMap::insert`: replaces any existing binding for `k`. -/
def AList.insert {α : Type} (k : Nat) (v : α) (m : AList α) : AList α :=
  (k, v) :: AList.erase k m

/-- `transaction.rs`: `enum TransactionType`. -/
inductive TransactionType : Type
  | Withdrawal
  | Deposit
  | Dispute
  | Resolve
  | Chargeback
deriving DecidableEq, Repr

/-- `transaction.rs`: `struct TransactionUnchecked` (deserialized, unvalidated). -/
structure TransactionUnchecked : Type where
  type : TransactionType
  client : Nat
  id : Nat
  amount : Option ℚ
deriving DecidableEq, Repr

/-- `transaction.rs`: `struct Transaction` (validated on construction). -/
structure Transaction : Type where
  type : TransactionType
  client : Nat
  id : Nat
  amount : Option ℚ
deriving DecidableEq, Repr

/-- `errors.rs`: the `TransactionError` and `ClientError` variants, flattened
(the source's `Error` enum merely wraps these two together with csv/io errors
that never arise from `add`). The misspelling `NoxexistentDispute` is the
source's. -/
inductive Err : Type
  | AlreadyExists (id : Nat)
  | NonexistentTransaction (id : Nat)
  | AmountNotPositive (id : Nat)
  | ClientMismatch (id : Nat)
  | NoxexistentDispute (id : Nat)
  | DisputeAlreadyExists (id : Nat)
  | MissingAmount (id : Nat)
  | SuperfluousAmount (id : Nat)
  | Locked (id : Nat)
  | InsufficientFunds (id : Nat)
deriving DecidableEq, Repr

/-- `transaction.rs`: `Transaction::from_unchecked` (no checks). -/
def Transaction.from_unchecked (tx : TransactionUnchecked) : Transaction :=
  { amount := tx.amount, client := tx.client, id := tx.id, type := tx.type }

/-- `transaction.rs`: `impl TryFrom<TransactionUnchecked> for Transaction`. -/
def Transaction.try_from (tx : TransactionUnchecked) : Except Err Transaction :=
  match tx.type with
  | .Deposit | .Withdrawal =>
    match tx.amount with
    | some amount =>
      if amount ≤ 0 then
        .error (.AmountNotPositive tx.id)
      else
        .ok (Transaction.from_unchecked tx)
    | none => .error (.MissingAmount tx.id)
  | .Dispute | .Resolve | .Chargeback =>
    match tx.amount with
    | some _ => .error (.SuperfluousAmount tx.id)
    | none => .ok (Transaction.from_unchecked tx)

/-- `state.rs`: `struct Client` — the state of one client. -/
structure Client : Type where
  id : Nat
  available : ℚ
  held : ℚ
  locked : Bool
deriving DecidableEq, Repr

/-- `state.rs`: `Client::from_id`. -/
def Client.from_id (id : Nat) : Client :=
  { id := id, available := 0, held := 0, locked := false }

/-- `state.rs`: `struct CsvClient` — serialization record with derived total. -/
structure CsvClient : Type where
  client : Nat
  available : ℚ
  held : ℚ
  total : ℚ
  locked : Bool
deriving DecidableEq, Repr

/-- `state.rs`: `impl From<&Client> for CsvClient`. -/
def CsvClient.from_client (in_state : Client) : CsvClient :=
  { client := in_state.id
    available := in_state.available
    held := in_state.held
    total := in_state.available + in_state.held
    locked := in_state.locked }

/-- `state.rs`: `struct CurrentState`. -/
structure CurrentState : Type where
  transactions : AList Transaction
  disputes : AList Transaction
  client_states : AList Client
deriving DecidableEq, Repr

/-- `#[derive(Default)]` for `CurrentState`: all maps empty. -/
def CurrentState.default : CurrentState :=
  { transactions := [], disputes := [], client_states := [] }

/-- Result of `check_regular`: the (possibly freshly created) client plus the
updated state, or an error plus the state as mutated so far. -/
inductive RegularCheck : Type
  | ok (client : Client) (s : CurrentState)
  | err (e : Err) (s : CurrentState)
deriving DecidableEq, Repr

/-- Result of `check_irregular`: client and referenced transaction plus the
updated state, an error plus state, or a panic (`unwrap` on `None`). -/
inductive IrregularCheck : Type
  | ok (client : Client) (rtx : Transaction) (s : CurrentState)
  | err (e : Err) (s : CurrentState)
  | panic
deriving DecidableEq, Repr

/-- Result of `CurrentState::add`: `Ok(())` with the new state, `Err` with the
state as mutated so far, or a panic (`unwrap` on `None`). -/
inductive AddResult : Type
  | ok (s : CurrentState)
  | err (e : Err) (s : CurrentState)
  | panic
deriving DecidableEq, Repr

/-- The state carried by a (non-panicking) `AddResult`. -/
def AddResult.state? : AddResult → Option CurrentState
  | .ok s => some s
  | .err _ s => some s
  | .panic => none

/-- `state.rs`: `CurrentState::check_regular` — checks for deposits and
withdrawals. `entry(..).or_insert_with(..)` lazily creates the client. -/
def CurrentState.check_regular (s : CurrentState) (tx : Transaction) :
    RegularCheck :=
  if (AList.lookup tx.id s.transactions).isSome then
    .err (.AlreadyExists tx.id) s
  else
    let (client, cs) :=
      match AList.lookup tx.client s.client_states with
      | some c => (c, s.client_states)
      | none =>
        (Client.from_id tx.client,
          AList.insert tx.client (Client.from_id tx.client) s.client_states)
    if client.locked then
      .err (.Locked tx.id) { s with client_states := cs }
    else
      .ok client { s with client_states := cs }

/-- `state.rs`: `CurrentState::check_irregular` — checks for disputes and
dispute results. The `client_states.get_mut(..).unwrap()` is a potential
panic; `disputes.remove` on an absent key leaves the map unchanged, so the
error paths return the state unaltered. -/
def CurrentState.check_irregular (s : CurrentState) (tx : Transaction) :
    IrregularCheck :=
  match AList.lookup tx.id s.transactions with
  | none => .err (.NonexistentTransaction tx.id) s
  | some rtx =>
    if tx.client ≠ rtx.client then
      .err (.ClientMismatch tx.id) s
    else
      match AList.lookup tx.client s.client_states with
      | none => .panic
      | some client =>
        if client.locked then
          .err (.Locked tx.id) s
        else if tx.type ≠ TransactionType.Dispute then
          match AList.lookup tx.id s.disputes with
          | none => .err (.NoxexistentDispute tx.id) s
          | some _ =>
            .ok client rtx { s with disputes := AList.erase tx.id s.disputes }
        else if (AList.lookup tx.id s.disputes).isSome then
          .err (.DisputeAlreadyExists tx.id) s
        else
          .ok client rtx s

/-- `state.rs`: `CurrentState::add` — processes one record and updates the
state. Mutations through the `&mut Client` reference are written back with
`AList.insert`. -/
def CurrentState.add (s : CurrentState) (tx : Transaction) : AddResult :=
  match tx.type with
  | .Withdrawal =>
    match s.check_regular tx with
    | .err e s' => .err e s'
    | .ok client s' =>
      match tx.amount with
      | none => .panic
      | some amt =>
        if amt ≥ client.available then
          .err (.InsufficientFunds tx.id) s'
        else
          let client' := { client with available := client.available - amt }
          .ok { s' with
                client_states := AList.insert tx.client client' s'.client_states }
  | .Deposit =>
    match s.check_regular tx with
    | .err e s' => .err e s'
    | .ok client s' =>
      match tx.amount with
      | none => .panic
      | some amt =>
        let client' := { client with available := client.available + amt }
        .ok { s' with
              client_states := AList.insert tx.client client' s'.client_states }
  | .Dispute =>
    match s.check_irregular tx with
    | .panic => .panic
    | .err e s' => .err e s'
    | .ok client rtx s' =>
      match rtx.amount with
      | none => .panic
      | some amt =>
        let client' := { client with
                         held := client.held + amt
                         available := client.available - amt }
        .ok { s' with
              client_states := AList.insert tx.client client' s'.client_states
              disputes := AList.insert tx.id tx s'.disputes }
  | .Resolve =>
    match s.check_irregular tx with
    | .panic => .panic
    | .err e s' => .err e s'
    | .ok client rtx s' =>
      match rtx.amount with
      | none => .panic
      | some amt =>
        let client' := { client with
                         held := client.held + amt
                         available := client.available - amt }
        .ok { s' with
              client_states := AList.insert tx.client client' s'.client_states }
  | .Chargeback =>
    match s.check_irregular tx with
    | .panic => .panic
    | .err e s' => .err e s'
    | .ok client rtx s' =>
      match rtx.amount with
      | none => .panic
      | some amt =>
        let client' := { client with
                         locked := true
                         held := client.held - amt }
        .ok { s' with
              client_states := AList.insert tx.client client' s'.client_states }

/-- `state.rs`: the loop of `process_from_csv` restricted to the state
machine: apply each record with `add`; on `Err` a warning is printed and
processing continues from the mutated state; a panic aborts the run. -/
def CurrentState.runAll (s : CurrentState) : List Transaction → CurrentState
  | [] => s
  | tx :: rest =>
    match s.add tx with
    | .ok s' => CurrentState.runAll s' rest
    | .err _ s' => CurrentState.runAll s' rest
    | .panic => s

/-- `state.rs`: `CurrentState::into_csv` — the snapshot records it serializes,
one `CsvClient` per client. -/
def CurrentState.into_csv (s : CurrentState) : List CsvClient :=
  s.client_states.map (fun p => CsvClient.from_client p.2)

end Payment

namespace Payment

theorem AList.lookup_insert_self {α : Type} (k : Nat) (v : α) (m : AList α) :
    AList.lookup k (AList.insert k v m) = some v := by
  simp [AList.insert, AList.lookup]

theorem AList.lookup_erase_ne {α : Type} {k k' : Nat} (m : AList α)
    (h : k ≠ k') : AList.lookup k (AList.erase k' m) = AList.lookup k m := by
  induction m with
  | nil => rfl
  | cons p rest ih =>
    obtain ⟨k₀, v₀⟩ := p
    by_cases h₀ : k₀ = k'
    · subst h₀
      have hk : ¬(k₀ = k) := fun hkk => h (hkk ▸ rfl)
      simp [AList.erase, AList.lookup, hk, ih]
    · simp [AList.erase, AList.lookup, h₀, ih]

theorem AList.lookup_insert_ne {α : Type} {k k' : Nat} (v : α) (m : AList α)
    (h : k ≠ k') : AList.lookup k (AList.insert k' v m) = AList.lookup k m := by
  have hk : ¬(k' = k) := fun hkk => h hkk.symm
  simp [AList.insert, AList.lookup, hk, AList.lookup_erase_ne m h]

/-- Inversion of `check_regular` on the success path. -/
theorem check_regular_ok_inv {s : CurrentState} {tx : Transaction}
    {client : Client} {s' : CurrentState}
    (h : s.check_regular tx = .ok client s') :
    AList.lookup tx.id s.transactions = none ∧
    client.locked = false ∧
    s'.transactions = s.transactions ∧
    s'.disputes = s.disputes ∧
    ((AList.lookup tx.client s.client_states = some client ∧ s' = s) ∨
     (AList.lookup tx.client s.client_states = none ∧
      client = Client.from_id tx.client ∧
      s'.client_states =
        AList.insert tx.client (Client.from_id tx.client) s.client_states)) := by
  unfold CurrentState.check_regular at h
  split at h
  · exact absurd h (by simp)
  · rename_i hnone
    have hT : AList.lookup tx.id s.transactions = none := by
      cases hT : AList.lookup tx.id s.transactions with
      | none => rfl
      | some t => rw [hT] at hnone; simp at hnone
    rcases hcl : AList.lookup tx.client s.client_states with _ | c
    all_goals rw [hcl] at h
    all_goals simp only [] at h
    · split at h
      · exact absurd h (by simp)
      · rename_i hlock
        cases h
        refine ⟨hT, by simp [Client.from_id], rfl, rfl, Or.inr ⟨rfl, rfl, rfl⟩⟩
    · split at h
      · exact absurd h (by simp)
      · rename_i hlock
        cases h
        exact ⟨hT, by simpa using hlock, rfl, rfl, Or.inl ⟨rfl, rfl⟩⟩

/-- Inversion of `check_regular` on the error path: the state is returned
unchanged (the lazily created client is never the locked one). -/
theorem check_regular_err_inv {s : CurrentState} {tx : Transaction}
    {e : Err} {s' : CurrentState}
    (h : s.check_regular tx = .err e s') :
    s' = s ∧
    ((e = .AlreadyExists tx.id ∧ (AList.lookup tx.id s.transactions).isSome) ∨
     (e = .Locked tx.id ∧
      ∃ c, AList.lookup tx.client s.client_states = some c ∧
        c.locked = true)) := by
  unfold CurrentState.check_regular at h
  split at h
  · rename_i hsome
    cases h
    exact ⟨rfl, Or.inl ⟨rfl, hsome⟩⟩
  · rename_i hnone
    rcases hcl : AList.lookup tx.client s.client_states with _ | c
    all_goals rw [hcl] at h
    all_goals simp only [] at h
    · split at h
      · rename_i hlock
        simp [Client.from_id] at hlock
      · exact absurd h (by simp)
    · split at h
      · rename_i hlock
        cases h
        refine ⟨rfl, Or.inr ⟨rfl, ⟨c, rfl, hlock⟩⟩⟩
      · exact absurd h (by simp)

/-- Inversion of `check_irregular` on the success path. -/
theorem check_irregular_ok_inv {s : CurrentState} {tx : Transaction}
    {client : Client} {rtx : Transaction} {s' : CurrentState}
    (h : s.check_irregular tx = .ok client rtx s') :
    AList.lookup tx.id s.transactions = some rtx ∧
    tx.client = rtx.client ∧
    AList.lookup tx.client s.client_states = some client ∧
    client.locked = false ∧
    s'.transactions = s.transactions ∧
    s'.client_states = s.client_states ∧
    ((tx.type = .Dispute ∧ AList.lookup tx.id s.disputes = none ∧ s' = s) ∨
     (tx.type ≠ .Dispute ∧ (AList.lookup tx.id s.disputes).isSome ∧
      s'.disputes = AList.erase tx.id s.disputes)) := by
  unfold CurrentState.check_irregular at h
  rcases hT : AList.lookup tx.id s.transactions with _ | rtx₀
  all_goals rw [hT] at h
  · exact absurd h (by simp)
  · simp only [] at h
    split at h
    · exact absurd h (by simp)
    · rename_i hmatch
      rcases hC : AList.lookup tx.client s.client_states with _ | c₀
      all_goals rw [hC] at h
      · exact absurd h (by simp)
      · simp only [] at h
        split at h
        · exact absurd h (by simp)
        · rename_i hlock
          split at h
          · rename_i hnd
            rcases hD : AList.lookup tx.id s.disputes with _ | d₀
            all_goals rw [hD] at h
            · exact absurd h (by simp)
            · simp only [] at h
              cases h
              exact ⟨rfl, by simpa using hmatch, rfl, by simpa using hlock,
                rfl, rfl, Or.inr ⟨hnd, by simp, rfl⟩⟩
          · rename_i hd
            split at h
            · exact absurd h (by simp)
            · rename_i hD
              cases h
              refine ⟨rfl, by simpa using hmatch, rfl, by simpa using hlock,
                rfl, rfl, Or.inl ⟨by simpa using hd, ?_, rfl⟩⟩
              cases hD' : AList.lookup tx.id s.disputes with
              | none => rfl
              | some d => rw [hD'] at hD; simp at hD

/-- Inversion of `check_irregular` on the error path: the state is returned
unchanged. -/
theorem check_irregular_err_inv {s : CurrentState} {tx : Transaction}
    {e : Err} {s' : CurrentState}
    (h : s.check_irregular tx = .err e s') : s' = s := by
  unfold CurrentState.check_irregular at h
  rcases hT : AList.lookup tx.id s.transactions with _ | rtx₀
  all_goals rw [hT] at h
  · cases h; rfl
  · simp only [] at h
    split at h
    · cases h; rfl
    · rcases hC : AList.lookup tx.client s.client_states with _ | c₀
      all_goals rw [hC] at h
      · exact absurd h (by simp)
      · simp only [] at h
        split at h
        · cases h; rfl
        · split at h
          · rcases hD : AList.lookup tx.id s.disputes with _ | d₀
            all_goals rw [hD] at h
            · cases h; rfl
            · exact absurd h (by simp)
          · split at h
            · cases h; rfl
            · exact absurd h (by simp)

/-- On an empty Ledger, `check_irregular` always rejects with
`NonexistentTransaction`. -/
theorem check_irregular_empty (s : CurrentState) (tx : Transaction)
    (h : s.transactions = []) :
    s.check_irregular tx = .err (.NonexistentTransaction tx.id) s := by
  unfold CurrentState.check_irregular
  rw [h]
  rfl

/-- No branch of `add` ever writes to the `transactions` map: whatever the
outcome, the resulting state's Ledger is the input state's Ledger. -/
theorem add_transactions_unchanged {s : CurrentState} {tx : Transaction}
    {s' : CurrentState} (h : (s.add tx).state? = some s') :
    s'.transactions = s.transactions := by
  cases hty : tx.type
  all_goals simp only [CurrentState.add, hty] at h
  case Withdrawal =>
    rcases hcr : s.check_regular tx with ⟨client, s₁⟩ | ⟨e, s₁⟩
    all_goals rw [hcr] at h
    · rcases ha : tx.amount with _ | amt
      all_goals rw [ha] at h
      · simp [AddResult.state?] at h
      · simp only [] at h
        split at h
        all_goals simp only [AddResult.state?, Option.some.injEq] at h
        all_goals subst h
        · exact (check_regular_ok_inv hcr).2.2.1
        · exact (check_regular_ok_inv hcr).2.2.1
    · simp only [AddResult.state?, Option.some.injEq] at h
      subst h
      rw [(check_regular_err_inv hcr).1]
  case Deposit =>
    rcases hcr : s.check_regular tx with ⟨client, s₁⟩ | ⟨e, s₁⟩
    all_goals rw [hcr] at h
    · rcases ha : tx.amount with _ | amt
      all_goals rw [ha] at h
      · simp [AddResult.state?] at h
      · simp only [AddResult.state?, Option.some.injEq] at h
        subst h
        exact (check_regular_ok_inv hcr).2.2.1
    · simp only [AddResult.state?, Option.some.injEq] at h
      subst h
      rw [(check_regular_err_inv hcr).1]
  case Dispute =>
    rcases hci : s.check_irregular tx with ⟨client, rtx, s₁⟩ | ⟨e, s₁⟩ | _
    all_goals rw [hci] at h
    all_goals simp only [] at h
    · rcases ha : rtx.amount with _ | amt
      all_goals rw [ha] at h
      · simp [AddResult.state?] at h
      · simp only [AddResult.state?, Option.some.injEq] at h
        subst h
        exact (check_irregular_ok_inv hci).2.2.2.2.1
    · simp only [AddResult.state?, Option.some.injEq] at h
      subst h
      rw [check_irregular_err_inv hci]
    · simp [AddResult.state?] at h
  case Resolve =>
    rcases hci : s.check_irregular tx with ⟨client, rtx, s₁⟩ | ⟨e, s₁⟩ | _
    all_goals rw [hci] at h
    all_goals simp only [] at h
    · rcases ha : rtx.amount with _ | amt
      all_goals rw [ha] at h
      · simp [AddResult.state?] at h
      · simp only [AddResult.state?, Option.some.injEq] at h
        subst h
        exact (check_irregular_ok_inv hci).2.2.2.2.1
    · simp only [AddResult.state?, Option.some.injEq] at h
      subst h
      rw [check_irregular_err_inv hci]
    · simp [AddResult.state?] at h
  case Chargeback =>
    rcases hci : s.check_irregular tx with ⟨client, rtx, s₁⟩ | ⟨e, s₁⟩ | _
    all_goals rw [hci] at h
    all_goals simp only [] at h
    · rcases ha : rtx.amount with _ | amt
      all_goals rw [ha] at h
      · simp [AddResult.state?] at h
      · simp only [AddResult.state?, Option.some.injEq] at h
        subst h
        exact (check_irregular_ok_inv hci).2.2.2.2.1
    · simp only [AddResult.state?, Option.some.injEq] at h
      subst h
      rw [check_irregular_err_inv hci]
    · simp [AddResult.state?] at h

/-- `runAll` never changes the `transactions` map either. -/
theorem runAll_transactions_unchanged (txs : List Transaction) :
    ∀ s : CurrentState, (s.runAll txs).transactions = s.transactions := by
  induction txs with
  | nil => intro s; rfl
  | cons tx rest ih =>
    intro s
    unfold CurrentState.runAll
    rcases ha : s.add tx with s₁ | ⟨e, s₁⟩ | _
    · rw [ih s₁, add_transactions_unchanged (by rw [ha]; rfl)]
    · rw [ih s₁, add_transactions_unchanged (by rw [ha]; rfl)]
    · rfl

/-- With an empty Ledger every irregular event is rejected with
`NonexistentTransaction`, whatever its other fields. -/
theorem add_irregular_empty_ledger {s : CurrentState} (tx : Transaction)
    (hled : s.transactions = [])
    (hty : tx.type = .Dispute ∨ tx.type = .Resolve ∨ tx.type = .Chargeback) :
    s.add tx = .err (.NonexistentTransaction tx.id) s := by
  rcases hty with hty | hty | hty
  all_goals simp only [CurrentState.add, hty, check_irregular_empty s tx hled]

/-- Computation of `check_irregular` on an accepted Dispute. -/
theorem check_irregular_dispute_ok {s : CurrentState} {tx rtx : Transaction}
    {c : Client}
    (hty : tx.type = .Dispute)
    (hT : AList.lookup tx.id s.transactions = some rtx)
    (hmatch : tx.client = rtx.client)
    (hC : AList.lookup tx.client s.client_states = some c)
    (hl : c.locked = false)
    (hD : AList.lookup tx.id s.disputes = none) :
    s.check_irregular tx = .ok c rtx s := by
  unfold CurrentState.check_irregular
  rw [hT]
  simp only []
  rw [if_neg (by simp [hmatch]), hC]
  simp only []
  rw [if_neg (by simp [hl]), if_neg (by simp [hty]), if_neg (by simp [hD])]

/-- Computation of `check_irregular` on a Dispute whose id is already under
active dispute. -/
theorem check_irregular_dispute_again {s : CurrentState} {tx rtx : Transaction}
    {c : Client}
    (hty : tx.type = .Dispute)
    (hT : AList.lookup tx.id s.transactions = some rtx)
    (hmatch : tx.client = rtx.client)
    (hC : AList.lookup tx.client s.client_states = some c)
    (hl : c.locked = false)
    (hD : (AList.lookup tx.id s.disputes).isSome) :
    s.check_irregular tx = .err (.DisputeAlreadyExists tx.id) s := by
  unfold CurrentState.check_irregular
  rw [hT]
  simp only []
  rw [if_neg (by simp [hmatch]), hC]
  simp only []
  rw [if_neg (by simp [hl]), if_neg (by simp [hty]), if_pos hD]

/-- Computation of `add` on an accepted Dispute: hold the referenced amount
and record the dispute marker. -/
theorem add_dispute_ok {s : CurrentState} {tx rtx : Transaction} {c : Client}
    {amt : ℚ}
    (hty : tx.type = .Dispute)
    (hT : AList.lookup tx.id s.transactions = some rtx)
    (hmatch : tx.client = rtx.client)
    (hC : AList.lookup tx.client s.client_states = some c)
    (hl : c.locked = false)
    (hD : AList.lookup tx.id s.disputes = none)
    (ha : rtx.amount = some amt) :
    s.add tx = .ok { s with
      client_states := AList.insert tx.client
        { c with held := c.held + amt, available := c.available - amt }
        s.client_states
      disputes := AList.insert tx.id tx s.disputes } := by
  simp only [CurrentState.add, hty,
    check_irregular_dispute_ok hty hT hmatch hC hl hD, ha]

/-- Computation of `add` on a repeated Dispute. -/
theorem add_dispute_again {s : CurrentState} {tx rtx : Transaction} {c : Client}
    (hty : tx.type = .Dispute)
    (hT : AList.lookup tx.id s.transactions = some rtx)
    (hmatch : tx.client = rtx.client)
    (hC : AList.lookup tx.client s.client_states = some c)
    (hl : c.locked = false)
    (hD : (AList.lookup tx.id s.disputes).isSome) :
    s.add tx = .err (.DisputeAlreadyExists tx.id) s := by
  simp only [CurrentState.add, hty,
    check_irregular_dispute_again hty hT hmatch hC hl hD]

/-- Inversion of `add` on the error path: the Ledger and the dispute map are
untouched, and the client registry is untouched except that a rejected
Withdrawal (`InsufficientFunds`) may have lazily created the client's
(zero-balance, unlocked) account. -/
theorem add_err_state_inv {s : CurrentState} {tx : Transaction} {e : Err}
    {s' : CurrentState} (h : s.add tx = .err e s') :
    s'.transactions = s.transactions ∧ s'.disputes = s.disputes ∧
    (s'.client_states = s.client_states ∨
      (e = .InsufficientFunds tx.id ∧
       AList.lookup tx.client s.client_states = none ∧
       s'.client_states =
         AList.insert tx.client (Client.from_id tx.client) s.client_states)) := by
  cases hty : tx.type
  all_goals simp only [CurrentState.add, hty] at h
  case Withdrawal =>
    rcases hcr : s.check_regular tx with ⟨client, s₁⟩ | ⟨e₁, s₁⟩
    all_goals rw [hcr] at h
    all_goals simp only [] at h
    · rcases ha : tx.amount with _ | amt
      all_goals rw [ha] at h
      · exact absurd h (by simp)
      · simp only [] at h
        split at h
        · cases h
          obtain ⟨hTn, hlf, hTr, hDi, hor⟩ := check_regular_ok_inv hcr
          rcases hor with ⟨hCl, rfl⟩ | ⟨hCn, hclient, hcs⟩
          · exact ⟨rfl, rfl, Or.inl rfl⟩
          · exact ⟨hTr, hDi, Or.inr ⟨rfl, hCn, by rw [hcs]⟩⟩
        · exact absurd h (by simp)
    · cases h
      obtain ⟨rfl, _⟩ := check_regular_err_inv hcr
      exact ⟨rfl, rfl, Or.inl rfl⟩
  case Deposit =>
    rcases hcr : s.check_regular tx with ⟨client, s₁⟩ | ⟨e₁, s₁⟩
    all_goals rw [hcr] at h
    all_goals simp only [] at h
    · rcases ha : tx.amount with _ | amt
      all_goals rw [ha] at h
      · exact absurd h (by simp)
      · exact absurd h (by simp)
    · cases h
      obtain ⟨rfl, _⟩ := check_regular_err_inv hcr
      exact ⟨rfl, rfl, Or.inl rfl⟩
  all_goals
    rcases hci : s.check_irregular tx with ⟨client, rtx, s₁⟩ | ⟨e₁, s₁⟩ | _
  all_goals rw [hci] at h
  all_goals simp only [] at h
  case Dispute.ok =>
    rcases ha : rtx.amount with _ | amt
    all_goals rw [ha] at h
    · exact absurd h (by simp)
    · exact absurd h (by simp)
  case Resolve.ok =>
    rcases ha : rtx.amount with _ | amt
    all_goals rw [ha] at h
    · exact absurd h (by simp)
    · exact absurd h (by simp)
  case Chargeback.ok =>
    rcases ha : rtx.amount with _ | amt
    all_goals rw [ha] at h
    · exact absurd h (by simp)
    · exact absurd h (by simp)
  case Dispute.err =>
    cases h
    rw [check_irregular_err_inv hci]
    exact ⟨rfl, rfl, Or.inl rfl⟩
  case Resolve.err =>
    cases h
    rw [check_irregular_err_inv hci]
    exact ⟨rfl, rfl, Or.inl rfl⟩
  case Chargeback.err =>
    cases h
    rw [check_irregular_err_inv hci]
    exact ⟨rfl, rfl, Or.inl rfl⟩
  case Dispute.panic => exact absurd h (by simp)
  case Resolve.panic => exact absurd h (by simp)
  case Chargeback.panic => exact absurd h (by simp)

/-- How one `add` call can change a client's `locked` flag: it is preserved,
except that an accepted Chargeback may set it to `true`. Clients are never
removed. -/
theorem add_locked_evolution {s : CurrentState} {tx : Transaction}
    {s' : CurrentState} (h : (s.add tx).state? = some s') (cid : Nat)
    (cl : Client) (hc : AList.lookup cid s.client_states = some cl) :
    ∃ cl', AList.lookup cid s'.client_states = some cl' ∧
      (cl'.locked = cl.locked ∨
       (cl'.locked = true ∧ tx.type = .Chargeback)) := by
  cases hty : tx.type
  all_goals simp only [CurrentState.add, hty] at h
  case Withdrawal =>
    rcases hcr : s.check_regular tx with ⟨client, s₁⟩ | ⟨e₁, s₁⟩
    all_goals rw [hcr] at h
    all_goals simp only [] at h
    · rcases ha : tx.amount with _ | amt
      all_goals rw [ha] at h
      · simp [AddResult.state?] at h
      · simp only [] at h
        obtain ⟨hTn, hlf, hTr, hDi, hor⟩ := check_regular_ok_inv hcr
        split at h
        all_goals simp only [AddResult.state?, Option.some.injEq] at h
        all_goals subst h
        · rcases hor with ⟨hCl, rfl⟩ | ⟨hCn, hclient, hcs⟩
          · exact ⟨cl, hc, Or.inl rfl⟩
          · by_cases hcd : cid = tx.client
            · rw [hcd] at hc; rw [hc] at hCn; cases hCn
            · refine ⟨cl, ?_, Or.inl rfl⟩
              rw [hcs, AList.lookup_insert_ne _ _ hcd]
              exact hc
        · by_cases hcd : cid = tx.client
          · subst hcd
            rcases hor with ⟨hCl, rfl⟩ | ⟨hCn, hclient, hcs⟩
            · rw [hCl] at hc
              injection hc with hc'
              subst hc'
              exact ⟨_, AList.lookup_insert_self _ _ _, Or.inl rfl⟩
            · rw [hc] at hCn; cases hCn
          · refine ⟨cl, ?_, Or.inl rfl⟩
            show AList.lookup cid
              (AList.insert tx.client _ s₁.client_states) = some cl
            rw [AList.lookup_insert_ne _ _ hcd]
            rcases hor with ⟨hCl, rfl⟩ | ⟨hCn, hclient, hcs⟩
            · exact hc
            · rw [hcs, AList.lookup_insert_ne _ _ hcd]
              exact hc
    · simp only [AddResult.state?, Option.some.injEq] at h
      subst h
      obtain ⟨rfl, _⟩ := check_regular_err_inv hcr
      exact ⟨cl, hc, Or.inl rfl⟩
  case Deposit =>
    rcases hcr : s.check_regular tx with ⟨client, s₁⟩ | ⟨e₁, s₁⟩
    all_goals rw [hcr] at h
    all_goals simp only [] at h
    · rcases ha : tx.amount with _ | amt
      all_goals rw [ha] at h
      · simp [AddResult.state?] at h
      · simp only [AddResult.state?, Option.some.injEq] at h
        subst h
        obtain ⟨hTn, hlf, hTr, hDi, hor⟩ := check_regular_ok_inv hcr
        by_cases hcd : cid = tx.client
        · subst hcd
          rcases hor with ⟨hCl, rfl⟩ | ⟨hCn, hclient, hcs⟩
          · rw [hCl] at hc
            injection hc with hc'
            subst hc'
            exact ⟨_, AList.lookup_insert_self _ _ _, Or.inl rfl⟩
          · rw [hc] at hCn; cases hCn
        · refine ⟨cl, ?_, Or.inl rfl⟩
          show AList.lookup cid
            (AList.insert tx.client _ s₁.client_states) = some cl
          rw [AList.lookup_insert_ne _ _ hcd]
          rcases hor with ⟨hCl, rfl⟩ | ⟨hCn, hclient, hcs⟩
          · exact hc
          · rw [hcs, AList.lookup_insert_ne _ _ hcd]
            exact hc
    · simp only [AddResult.state?, Option.some.injEq] at h
      subst h
      obtain ⟨rfl, _⟩ := check_regular_err_inv hcr
      exact ⟨cl, hc, Or.inl rfl⟩
  all_goals
    rcases hci : s.check_irregular tx with ⟨client, rtx, s₁⟩ | ⟨e₁, s₁⟩ | _
  all_goals rw [hci] at h
  all_goals simp only [] at h
  case Dispute.err | Resolve.err | Chargeback.err =>
    simp only [AddResult.state?, Option.some.injEq] at h
    subst h
    rw [check_irregular_err_inv hci]
    exact ⟨cl, hc, Or.inl rfl⟩
  case Dispute.panic | Resolve.panic | Chargeback.panic =>
    simp [AddResult.state?] at h
  all_goals
    rcases ha : rtx.amount with _ | amt
  all_goals rw [ha] at h
  case Dispute.ok.none | Resolve.ok.none | Chargeback.ok.none =>
    simp [AddResult.state?] at h
  all_goals simp only [AddResult.state?, Option.some.injEq] at h
  all_goals subst h
  all_goals
    obtain ⟨hT, hm, hC, hlf, hTr, hCs, _⟩ := check_irregular_ok_inv hci
  case Dispute.ok.some =>
    by_cases hcd : cid = tx.client
    · subst hcd
      rw [hC] at hc
      injection hc with hc'
      subst hc'
      exact ⟨_, AList.lookup_insert_self _ _ _, Or.inl rfl⟩
    · refine ⟨cl, ?_, Or.inl rfl⟩
      show AList.lookup cid
        (AList.insert tx.client _ s₁.client_states) = some cl
      rw [AList.lookup_insert_ne _ _ hcd, hCs]
      exact hc
  case Resolve.ok.some =>
    by_cases hcd : cid = tx.client
    · subst hcd
      rw [hC] at hc
      injection hc with hc'
      subst hc'
      exact ⟨_, AList.lookup_insert_self _ _ _, Or.inl rfl⟩
    · refine ⟨cl, ?_, Or.inl rfl⟩
      show AList.lookup cid
        (AList.insert tx.client _ s₁.client_states) = some cl
      rw [AList.lookup_insert_ne _ _ hcd, hCs]
      exact hc
  case Chargeback.ok.some =>
    by_cases hcd : cid = tx.client
    · subst hcd
      rw [hC] at hc
      injection hc with hc'
      subst hc'
      exact ⟨_, AList.lookup_insert_self _ _ _, Or.inr ⟨rfl, rfl⟩⟩
    · refine ⟨cl, ?_, Or.inl rfl⟩
      show AList.lookup cid
        (AList.insert tx.client _ s₁.client_states) = some cl
      rw [AList.lookup_insert_ne _ _ hcd, hCs]
      exact hc

/-- `check_regular` on a locked client always errs, leaving the state as is. -/
theorem check_regular_locked_err {s : CurrentState} {tx : Transaction}
    {c : Client} (hC : AList.lookup tx.client s.client_states = some c)
    (hl : c.locked = true) :
    ∃ e, s.check_regular tx = .err e s := by
  unfold CurrentState.check_regular
  by_cases hT : (AList.lookup tx.id s.transactions).isSome
  · exact ⟨.AlreadyExists tx.id, by rw [if_pos hT]⟩
  · refine ⟨.Locked tx.id, ?_⟩
    rw [if_neg hT, hC]
    simp only []
    rw [if_pos hl]

/-- `check_regular` on a locked client errs with `Locked` when the
transaction id is fresh. -/
theorem check_regular_locked_fresh {s : CurrentState} {tx : Transaction}
    {c : Client} (hT : AList.lookup tx.id s.transactions = none)
    (hC : AList.lookup tx.client s.client_states = some c)
    (hl : c.locked = true) :
    s.check_regular tx = .err (.Locked tx.id) s := by
  unfold CurrentState.check_regular
  rw [if_neg (by simp [hT]), hC]
  simp only []
  rw [if_pos hl]

/-- `check_irregular` on a locked client always errs, leaving the state
as is. -/
theorem check_irregular_locked_err {s : CurrentState} {tx : Transaction}
    {c : Client} (hC : AList.lookup tx.client s.client_states = some c)
    (hl : c.locked = true) :
    ∃ e, s.check_irregular tx = .err e s := by
  unfold CurrentState.check_irregular
  cases hT : AList.lookup tx.id s.transactions with
  | none => exact ⟨.NonexistentTransaction tx.id, rfl⟩
  | some rtx =>
    simp only []
    by_cases hm : tx.client ≠ rtx.client
    · exact ⟨.ClientMismatch tx.id, by rw [if_pos hm]⟩
    · refine ⟨.Locked tx.id, ?_⟩
      rw [if_neg hm, hC]
      simp only []
      rw [if_pos hl]

/-- `check_irregular` on a locked client errs with `Locked` when the event
references a Ledger transaction of that same client. -/
theorem check_irregular_locked_ref {s : CurrentState} {tx rtx : Transaction}
    {c : Client} (hT : AList.lookup tx.id s.transactions = some rtx)
    (hm : tx.client = rtx.client)
    (hC : AList.lookup tx.client s.client_states = some c)
    (hl : c.locked = true) :
    s.check_irregular tx = .err (.Locked tx.id) s := by
  unfold CurrentState.check_irregular
  rw [hT]
  simp only []
  rw [if_neg (by simp [hm]), hC]
  simp only []
  rw [if_pos hl]

/-- On a locked client, `add` rejects every event and leaves the state
unchanged. -/
theorem add_locked_rejects {s : CurrentState} {tx : Transaction} {c : Client}
    (hC : AList.lookup tx.client s.client_states = some c)
    (hl : c.locked = true) :
    ∃ e, s.add tx = .err e s := by
  cases hty : tx.type
  case Withdrawal =>
    obtain ⟨e, he⟩ := check_regular_locked_err hC hl
    exact ⟨e, by simp only [CurrentState.add, hty, he]⟩
  case Deposit =>
    obtain ⟨e, he⟩ := check_regular_locked_err hC hl
    exact ⟨e, by simp only [CurrentState.add, hty, he]⟩
  case Dispute =>
    obtain ⟨e, he⟩ := check_irregular_locked_err hC hl
    exact ⟨e, by simp only [CurrentState.add, hty, he]⟩
  case Resolve =>
    obtain ⟨e, he⟩ := check_irregular_locked_err hC hl
    exact ⟨e, by simp only [CurrentState.add, hty, he]⟩
  case Chargeback =>
    obtain ⟨e, he⟩ := check_irregular_locked_err hC hl
    exact ⟨e, by simp only [CurrentState.add, hty, he]⟩

/-- Claim C1 (refuted — code bug): an accepted `Deposit(id 1, client 1,
amount 5)` from the initial state increases the client's `available` by
exactly the amount, but the Transaction Ledger afterwards does NOT contain
the transaction: `add` never inserts into `transactions`, so the Ledger is
still empty. -/
theorem deposit_applied_but_ledger_not_updated :
    CurrentState.default.add { type := .Deposit, client := 1, id := 1, amount := some 5 } =
      .ok { transactions := [], disputes := [],
            client_states :=
              [(1, { id := 1, available := 5, held := 0, locked := false })] } := by
  norm_num [CurrentState.add, CurrentState.check_regular, CurrentState.default,
    AList.lookup, AList.insert, AList.erase, Client.from_id]

/-- Claim C2: starting from the default initial state, the `transactions`
map (the Ledger) remains empty after every sequence of `add` calls — no
branch of `add` ever inserts into it — and consequently every Dispute,
Resolve or Chargeback event submitted through `add` is rejected with
`NonexistentTransaction`. -/
theorem ledger_always_empty_and_irregulars_rejected (txs : List Transaction) :
    (CurrentState.default.runAll txs).transactions = [] ∧
    ∀ tx : Transaction,
      (tx.type = .Dispute ∨ tx.type = .Resolve ∨ tx.type = .Chargeback) →
      (CurrentState.default.runAll txs).add tx =
        .err (.NonexistentTransaction tx.id) (CurrentState.default.runAll txs) := by
  have hled : (CurrentState.default.runAll txs).transactions = [] :=
    runAll_transactions_unchanged txs CurrentState.default
  exact ⟨hled, fun tx hty => add_irregular_empty_ledger tx hled hty⟩

/-- Witness for C2 at a concrete run: one deposit, then a dispute on its id
is still rejected with `NonexistentTransaction`. -/
theorem ledger_always_empty_and_irregulars_rejected_witness :
    (CurrentState.default.runAll
      [{ type := .Deposit, client := 1, id := 1, amount := some 5 }]).transactions = [] ∧
    (CurrentState.default.runAll
      [{ type := .Deposit, client := 1, id := 1, amount := some 5 }]).add
        { type := .Dispute, client := 1, id := 1, amount := none } =
      .err (.NonexistentTransaction 1)
        (CurrentState.default.runAll
          [{ type := .Deposit, client := 1, id := 1, amount := some 5 }]) :=
  ⟨(ledger_always_empty_and_irregulars_rejected _).1,
   (ledger_always_empty_and_irregulars_rejected _).2
     { type := .Dispute, client := 1, id := 1, amount := none } (Or.inl rfl)⟩

/-- Claim C4 (refuted — code bug): on an accepted Resolve of a disputed
transaction of amount 5 (client 1: available 0, held 5), the code clears the
dispute marker but applies the same adjustment as Dispute again — `held`
becomes 10 and `available` becomes -5 — instead of the claimed
`held -= 5; available += 5` (held 0, available 5). -/
theorem resolve_repeats_dispute_adjustment :
    CurrentState.add
      { transactions :=
          [(1, { type := .Deposit, client := 1, id := 1, amount := some 5 })],
        disputes :=
          [(1, { type := .Dispute, client := 1, id := 1, amount := none })],
        client_states :=
          [(1, { id := 1, available := 0, held := 5, locked := false })] }
      { type := .Resolve, client := 1, id := 1, amount := none } =
      .ok { transactions :=
              [(1, { type := .Deposit, client := 1, id := 1, amount := some 5 })],
            disputes := [],
            client_states :=
              [(1, { id := 1, available := -5, held := 10, locked := false })] } := by
  norm_num [CurrentState.add, CurrentState.check_irregular,
    AList.lookup, AList.insert, AList.erase,
    show TransactionType.Resolve ≠ TransactionType.Dispute from by decide]

/-- Counterexample to C5 as stated: the withdrawal `withdrawal,9,100,5.0`
from the initial state is rejected with `InsufficientFunds`, yet the state
is NOT unchanged — a new client account 9 has been created. -/
theorem rejected_withdrawal_creates_account :
    CurrentState.default.add
      { type := .Withdrawal, client := 9, id := 100, amount := some 5 } =
      .err (.InsufficientFunds 100)
        { transactions := [], disputes := [],
          client_states :=
            [(9, { id := 9, available := 0, held := 0, locked := false })] } ∧
    ({ transactions := [], disputes := [],
       client_states :=
         [(9, { id := 9, available := 0, held := 0, locked := false })] } :
        CurrentState) ≠ CurrentState.default := by
  constructor
  · norm_num [CurrentState.add, CurrentState.check_regular, CurrentState.default,
      AList.lookup, AList.insert, AList.erase, Client.from_id]
  · intro hcontra
    simp [CurrentState.default, CurrentState.mk.injEq] at hcontra

/-- Claim C5 (amended): if `add` returns an error then no balance, lock
flag, Ledger entry or dispute marker changes, and the client registry is
unchanged as well — except that a Withdrawal rejected with
`InsufficientFunds` may have lazily created the client's zero-balance,
unlocked account. -/
theorem add_error_preserves_state_except_lazy_client {s : CurrentState}
    {tx : Transaction} {e : Err} {s' : CurrentState}
    (h : s.add tx = .err e s') :
    s'.transactions = s.transactions ∧ s'.disputes = s.disputes ∧
    (s'.client_states = s.client_states ∨
      (e = .InsufficientFunds tx.id ∧
       AList.lookup tx.client s.client_states = none ∧
       s'.client_states =
         AList.insert tx.client (Client.from_id tx.client) s.client_states)) :=
  add_err_state_inv h

/-- Witness for C5 (amended) at the concrete rejected withdrawal. -/
theorem add_error_preserves_state_except_lazy_client_witness :
    ({ transactions := [], disputes := [],
       client_states :=
         [(9, { id := 9, available := 0, held := 0, locked := false })] } :
      CurrentState).transactions = CurrentState.default.transactions ∧
    ({ transactions := [], disputes := [],
       client_states :=
         [(9, { id := 9, available := 0, held := 0, locked := false })] } :
      CurrentState).disputes = CurrentState.default.disputes ∧
    (({ transactions := [], disputes := [],
        client_states :=
          [(9, { id := 9, available := 0, held := 0, locked := false })] } :
       CurrentState).client_states = CurrentState.default.client_states ∨
      (Err.InsufficientFunds 100 = Err.InsufficientFunds 100 ∧
       AList.lookup 9 CurrentState.default.client_states = none ∧
       ({ transactions := [], disputes := [],
          client_states :=
            [(9, { id := 9, available := 0, held := 0, locked := false })] } :
         CurrentState).client_states =
         AList.insert 9 (Client.from_id 9)
           CurrentState.default.client_states)) :=
  @add_error_preserves_state_except_lazy_client CurrentState.default
    ({ type := .Withdrawal, client := 9, id := 100, amount := some 5 } :
      Transaction)
    (.InsufficientFunds 100)
    ({ transactions := [], disputes := [],
       client_states :=
         [(9, { id := 9, available := 0, held := 0, locked := false })] } :
      CurrentState)
    (by norm_num [CurrentState.add, CurrentState.check_regular,
      CurrentState.default, AList.lookup, AList.insert, AList.erase,
      Client.from_id])

/-- Claim C6 (refuted in one clause — code bug): with available = 10, a
withdrawal of 4 succeeds and decreases `available` by exactly 4, and a
withdrawal of 10 (the exact-boundary case amount = available) is rejected
with `InsufficientFunds` leaving the state unchanged; but the successful
withdrawal is NOT inserted into the Ledger — `transactions` stays empty. -/
theorem withdrawal_boundary_but_no_ledger_insert :
    CurrentState.add
      { transactions := [], disputes := [],
        client_states :=
          [(9, { id := 9, available := 10, held := 0, locked := false })] }
      { type := .Withdrawal, client := 9, id := 100, amount := some 4 } =
      .ok { transactions := [], disputes := [],
            client_states :=
              [(9, { id := 9, available := 6, held := 0, locked := false })] } ∧
    CurrentState.add
      { transactions := [], disputes := [],
        client_states :=
          [(9, { id := 9, available := 10, held := 0, locked := false })] }
      { type := .Withdrawal, client := 9, id := 101, amount := some 10 } =
      .err (.InsufficientFunds 101)
        { transactions := [], disputes := [],
          client_states :=
            [(9, { id := 9, available := 10, held := 0, locked := false })] } := by
  constructor
  all_goals norm_num [CurrentState.add, CurrentState.check_regular,
    AList.lookup, AList.insert, AList.erase]

/-- Claim C10: processing the single event `withdrawal,9,100,5.0` from the
initial state creates account 9 with zero balances, rejects the withdrawal
with `InsufficientFunds` (5 ≥ 0), and the final snapshot contains client 9
with available 0, held 0, total 0, unlocked. -/
theorem single_withdrawal_scenario :
    CurrentState.default.add
      { type := .Withdrawal, client := 9, id := 100, amount := some 5 } =
      .err (.InsufficientFunds 100)
        { transactions := [], disputes := [],
          client_states :=
            [(9, { id := 9, available := 0, held := 0, locked := false })] } ∧
    (CurrentState.default.runAll
      [{ type := .Withdrawal, client := 9, id := 100, amount := some 5 }]).into_csv =
      [{ client := 9, available := 0, held := 0, total := 0, locked := false }] := by
  constructor
  all_goals norm_num [CurrentState.add, CurrentState.check_regular,
    CurrentState.default, CurrentState.runAll, CurrentState.into_csv,
    CsvClient.from_client, AList.lookup, AList.insert, AList.erase,
    Client.from_id]

/-- Claim C3: for every accepted Dispute on a Ledger transaction of amount
`amt`, the owning client's `held` increases by `amt`, its `available`
decreases by `amt`, and the transaction is marked actively disputed; a
second Dispute on the same transaction while the first dispute is active
fails with `DisputeAlreadyExists`. -/
theorem dispute_effect_and_second_dispute_rejected
    (s : CurrentState) (tx rtx : Transaction) (c : Client) (amt : ℚ)
    (hty : tx.type = .Dispute)
    (hT : AList.lookup tx.id s.transactions = some rtx)
    (hmatch : tx.client = rtx.client)
    (ha : rtx.amount = some amt)
    (hC : AList.lookup tx.client s.client_states = some c)
    (hl : c.locked = false)
    (hD : AList.lookup tx.id s.disputes = none) :
    s.add tx = .ok { s with
      client_states := AList.insert tx.client
        { c with held := c.held + amt, available := c.available - amt }
        s.client_states
      disputes := AList.insert tx.id tx s.disputes } ∧
    AList.lookup tx.client
      (AList.insert tx.client
        { c with held := c.held + amt, available := c.available - amt }
        s.client_states) =
      some { c with held := c.held + amt, available := c.available - amt } ∧
    AList.lookup tx.id (AList.insert tx.id tx s.disputes) = some tx ∧
    CurrentState.add
      { s with
        client_states := AList.insert tx.client
          { c with held := c.held + amt, available := c.available - amt }
          s.client_states
        disputes := AList.insert tx.id tx s.disputes } tx =
      .err (.DisputeAlreadyExists tx.id)
        { s with
          client_states := AList.insert tx.client
            { c with held := c.held + amt, available := c.available - amt }
            s.client_states
          disputes := AList.insert tx.id tx s.disputes } := by
  refine ⟨add_dispute_ok hty hT hmatch hC hl hD ha,
    AList.lookup_insert_self _ _ _, AList.lookup_insert_self _ _ _, ?_⟩
  exact add_dispute_again hty hT hmatch (AList.lookup_insert_self _ _ _) hl
    (by rw [AList.lookup_insert_self]; rfl)

/-- Witness for C3 at a concrete state: deposit 5 in the Ledger for client
1, then a dispute holds the 5 and a repeated dispute is rejected. -/
theorem dispute_effect_and_second_dispute_rejected_witness :
    CurrentState.add
      { transactions :=
          [(1, { type := .Deposit, client := 1, id := 1, amount := some 5 })],
        disputes := [],
        client_states :=
          [(1, { id := 1, available := 5, held := 0, locked := false })] }
      { type := .Dispute, client := 1, id := 1, amount := none } =
      .ok { transactions :=
              [(1, { type := .Deposit, client := 1, id := 1, amount := some 5 })],
            client_states := AList.insert 1
              ({ id := 1, available := 5 - 5, held := 0 + 5, locked := false } : Client)
              [(1, { id := 1, available := 5, held := 0, locked := false })]
            disputes := AList.insert 1
              ({ type := .Dispute, client := 1, id := 1, amount := none } : Transaction) [] } ∧
    AList.lookup 1
      (AList.insert 1
        ({ id := 1, available := 5 - 5, held := 0 + 5, locked := false } : Client)
        [(1, { id := 1, available := 5, held := 0, locked := false })]) =
      some ({ id := 1, available := 5 - 5, held := 0 + 5, locked := false } : Client) ∧
    AList.lookup 1
      (AList.insert 1
        ({ type := .Dispute, client := 1, id := 1, amount := none } : Transaction) []) =
      some ({ type := .Dispute, client := 1, id := 1, amount := none } : Transaction) ∧
    CurrentState.add
      { transactions :=
          [(1, { type := .Deposit, client := 1, id := 1, amount := some 5 })],
        client_states := AList.insert 1
          ({ id := 1, available := 5 - 5, held := 0 + 5, locked := false } : Client)
          [(1, { id := 1, available := 5, held := 0, locked := false })]
        disputes := AList.insert 1
          ({ type := .Dispute, client := 1, id := 1, amount := none } : Transaction) [] }
      { type := .Dispute, client := 1, id := 1, amount := none } =
      .err (.DisputeAlreadyExists 1)
        { transactions :=
            [(1, { type := .Deposit, client := 1, id := 1, amount := some 5 })],
          client_states := AList.insert 1
            ({ id := 1, available := 5 - 5, held := 0 + 5, locked := false } : Client)
            [(1, { id := 1, available := 5, held := 0, locked := false })]
          disputes := AList.insert 1
            ({ type := .Dispute, client := 1, id := 1, amount := none } : Transaction) [] } :=
  dispute_effect_and_second_dispute_rejected
    ({ transactions :=
        [(1, { type := .Deposit, client := 1, id := 1, amount := some 5 })],
       disputes := [],
       client_states :=
         [(1, { id := 1, available := 5, held := 0, locked := false })] } :
      CurrentState)
    ({ type := .Dispute, client := 1, id := 1, amount := none } : Transaction)
    ({ type := .Deposit, client := 1, id := 1, amount := some 5 } : Transaction)
    ({ id := 1, available := 5, held := 0, locked := false } : Client) 5
    rfl rfl rfl rfl rfl rfl rfl

/-- Counterexample to C7 as stated: for a locked client whose id is not in
the Ledger, a Dispute fails with `NonexistentTransaction`, not with
`Locked` — the existence and ownership checks run before the lock check. -/
theorem locked_client_dispute_fails_with_other_error :
    CurrentState.add
      { transactions := [], disputes := [],
        client_states :=
          [(1, { id := 1, available := 0, held := 0, locked := true })] }
      { type := .Dispute, client := 1, id := 1, amount := none } =
      .err (.NonexistentTransaction 1)
        { transactions := [], disputes := [],
          client_states :=
            [(1, { id := 1, available := 0, held := 0, locked := true })] } ∧
    Err.NonexistentTransaction 1 ≠ Err.Locked 1 := by
  constructor
  · norm_num [CurrentState.add, CurrentState.check_irregular, AList.lookup]
  · decide

/-- Claim C7 (amended): once a client's `locked` flag is true it is never
cleared by any `add` call, and it is set (for an existing client) only by an
accepted Chargeback; every subsequent event for a locked client is rejected,
with `Locked` specifically for a Deposit or Withdrawal whose id is not yet
in the Ledger, and for a Dispute, Resolve or Chargeback that references a
Ledger transaction owned by that client — other irregular events fail with
`NonexistentTransaction` or `ClientMismatch` instead. -/
theorem locked_account_permanent_and_rejections (s : CurrentState)
    (cid : Nat) (cl : Client)
    (hc : AList.lookup cid s.client_states = some cl)
    (hlocked : cl.locked = true) :
    (∀ (tx : Transaction) (s' : CurrentState), (s.add tx).state? = some s' →
       ∃ cl', AList.lookup cid s'.client_states = some cl' ∧
         cl'.locked = true) ∧
    (∀ tx : Transaction, tx.client = cid → ∃ e, s.add tx = .err e s) ∧
    (∀ tx : Transaction, tx.client = cid →
       (tx.type = .Deposit ∨ tx.type = .Withdrawal) →
       AList.lookup tx.id s.transactions = none →
       s.add tx = .err (.Locked tx.id) s) ∧
    (∀ tx rtx : Transaction, tx.client = cid →
       (tx.type = .Dispute ∨ tx.type = .Resolve ∨ tx.type = .Chargeback) →
       AList.lookup tx.id s.transactions = some rtx → rtx.client = cid →
       s.add tx = .err (.Locked tx.id) s) ∧
    (∀ (s₀ : CurrentState) (tx : Transaction) (s₁ : CurrentState)
       (cl₀ cl₁ : Client), (s₀.add tx).state? = some s₁ →
       AList.lookup cid s₀.client_states = some cl₀ → cl₀.locked = false →
       AList.lookup cid s₁.client_states = some cl₁ → cl₁.locked = true →
       tx.type = .Chargeback) := by
  refine ⟨?_, ?_, ?_, ?_, ?_⟩
  · intro tx s' h
    obtain ⟨cl', hcl', hor⟩ := add_locked_evolution h cid cl hc
    refine ⟨cl', hcl', ?_⟩
    rcases hor with h1 | ⟨h1, _⟩
    · rw [h1, hlocked]
    · exact h1
  · intro tx htc
    exact add_locked_rejects (by rw [htc]; exact hc) hlocked
  · intro tx htc hty hTn
    have he := check_regular_locked_fresh hTn (by rw [htc]; exact hc) hlocked
    rcases hty with hty | hty
    · simp only [CurrentState.add, hty, he]
    · simp only [CurrentState.add, hty, he]
  · intro tx rtx htc hty hT hrc
    have hm : tx.client = rtx.client := by rw [htc, hrc]
    have he := check_irregular_locked_ref hT hm (by rw [htc]; exact hc) hlocked
    rcases hty with hty | hty | hty
    · simp only [CurrentState.add, hty, he]
    · simp only [CurrentState.add, hty, he]
    · simp only [CurrentState.add, hty, he]
  · intro s₀ tx s₁ cl₀ cl₁ h h0 h0f h1 h1t
    obtain ⟨cl', hcl', hor⟩ := add_locked_evolution h cid cl₀ h0
    rw [hcl'] at h1
    injection h1 with h1e
    subst h1e
    rcases hor with he | ⟨_, hcb⟩
    · rw [h1t, h0f] at he
      cases he
    · exact hcb

/-- Witness for C7 (amended) at a concrete locked account: a deposit with a
fresh id for the locked client 1 is rejected with `Locked`. -/
theorem locked_account_permanent_and_rejections_witness :
    CurrentState.add
      { transactions := [], disputes := [],
        client_states :=
          [(1, { id := 1, available := 0, held := 0, locked := true })] }
      { type := .Deposit, client := 1, id := 2, amount := some 3 } =
      .err (.Locked 2)
        { transactions := [], disputes := [],
          client_states :=
            [(1, { id := 1, available := 0, held := 0, locked := true })] } :=
  (locked_account_permanent_and_rejections
    ({ transactions := [], disputes := [],
       client_states :=
         [(1, { id := 1, available := 0, held := 0, locked := true })] } :
      CurrentState)
    1 ({ id := 1, available := 0, held := 0, locked := true } : Client)
    rfl rfl).2.2.1
    ({ type := .Deposit, client := 1, id := 2, amount := some 3 } : Transaction)
    rfl (Or.inl rfl) rfl

/-- Claim C8: record validation succeeds exactly when the kind/amount
combination is well-formed — for Deposit and Withdrawal an absent amount
fails with `MissingAmount`, an amount ≤ 0 fails with `AmountNotPositive`;
for Dispute, Resolve and Chargeback a present amount fails with
`SuperfluousAmount`; otherwise the validated transaction is produced with
every field preserved unchanged. -/
theorem try_from_validation (tx : TransactionUnchecked) :
    ((tx.type = .Deposit ∨ tx.type = .Withdrawal) →
      (tx.amount = none →
        Transaction.try_from tx = .error (.MissingAmount tx.id)) ∧
      (∀ a : ℚ, tx.amount = some a → a ≤ 0 →
        Transaction.try_from tx = .error (.AmountNotPositive tx.id)) ∧
      (∀ a : ℚ, tx.amount = some a → 0 < a →
        Transaction.try_from tx =
          .ok { type := tx.type, client := tx.client, id := tx.id,
                amount := tx.amount })) ∧
    ((tx.type = .Dispute ∨ tx.type = .Resolve ∨ tx.type = .Chargeback) →
      (∀ a : ℚ, tx.amount = some a →
        Transaction.try_from tx = .error (.SuperfluousAmount tx.id)) ∧
      (tx.amount = none →
        Transaction.try_from tx =
          .ok { type := tx.type, client := tx.client, id := tx.id,
                amount := tx.amount })) := by
  cases hty : tx.type
  case Deposit =>
    refine ⟨fun _ => ⟨?_, ?_, ?_⟩, fun hcontra => ?_⟩
    · intro ha
      simp [Transaction.try_from, hty, ha]
    · intro a ha hle
      simp [Transaction.try_from, hty, ha, hle]
    · intro a ha hlt
      simp [Transaction.try_from, hty, ha, not_le.mpr hlt,
        Transaction.from_unchecked]
    · rcases hcontra with h | h | h
      all_goals cases h
  case Withdrawal =>
    refine ⟨fun _ => ⟨?_, ?_, ?_⟩, fun hcontra => ?_⟩
    · intro ha
      simp [Transaction.try_from, hty, ha]
    · intro a ha hle
      simp [Transaction.try_from, hty, ha, hle]
    · intro a ha hlt
      simp [Transaction.try_from, hty, ha, not_le.mpr hlt,
        Transaction.from_unchecked]
    · rcases hcontra with h | h | h
      all_goals cases h
  case Dispute =>
    refine ⟨fun hcontra => ?_, fun _ => ⟨?_, ?_⟩⟩
    · rcases hcontra with h | h
      all_goals cases h
    · intro a ha
      simp [Transaction.try_from, hty, ha]
    · intro ha
      simp [Transaction.try_from, hty, ha, Transaction.from_unchecked]
  case Resolve =>
    refine ⟨fun hcontra => ?_, fun _ => ⟨?_, ?_⟩⟩
    · rcases hcontra with h | h
      all_goals cases h
    · intro a ha
      simp [Transaction.try_from, hty, ha]
    · intro ha
      simp [Transaction.try_from, hty, ha, Transaction.from_unchecked]
  case Chargeback =>
    refine ⟨fun hcontra => ?_, fun _ => ⟨?_, ?_⟩⟩
    · rcases hcontra with h | h
      all_goals cases h
    · intro a ha
      simp [Transaction.try_from, hty, ha]
    · intro ha
      simp [Transaction.try_from, hty, ha, Transaction.from_unchecked]

/-- Witness for C8: a deposit with a positive amount validates to the same
fields. -/
theorem try_from_validation_witness :
    Transaction.try_from
      { type := .Deposit, client := 7, id := 42, amount := some 3 } =
      .ok { type := .Deposit, client := 7, id := 42, amount := some 3 } :=
  ((try_from_validation
    ({ type := .Deposit, client := 7, id := 42, amount := some 3 } :
      TransactionUnchecked)).1 (Or.inl rfl)).2.2 3 rfl (by norm_num)

/-- Claim C9: every record produced by the snapshot exporter satisfies
total = available + held, and total is computed at export time from the
account's `available` and `held` fields (the stored `Client` state has no
total field to begin with). -/
theorem snapshot_total_always_derived (s : CurrentState) :
    (∀ r ∈ s.into_csv, r.total = r.available + r.held) ∧
    (∀ c : Client, CsvClient.from_client c =
      { client := c.id, available := c.available, held := c.held,
        total := c.available + c.held, locked := c.locked }) := by
  constructor
  · intro r hr
    simp only [CurrentState.into_csv, List.mem_map] at hr
    obtain ⟨p, _, rfl⟩ := hr
    rfl
  · intro c
    rfl

/-- Witness for C9 on a concrete one-account state. -/
theorem snapshot_total_always_derived_witness :
    (CsvClient.from_client
      ({ id := 1, available := 3, held := 4, locked := false } : Client)).total =
      (CsvClient.from_client
        ({ id := 1, available := 3, held := 4, locked := false } : Client)).available +
      (CsvClient.from_client
        ({ id := 1, available := 3, held := 4, locked := false } : Client)).held :=
  (snapshot_total_always_derived
    ({ transactions := [], disputes := [],
       client_states :=
         [(1, { id := 1, available := 3, held := 4, locked := false })] } :
      CurrentState)).1
    (CsvClient.from_client
      ({ id := 1, available := 3, held := 4, locked := false } : Client))
    (by simp [CurrentState.into_csv])

end Payment
